import Mathlib

/-!
Verification of the async_notification crate: a shallow embedding of the
handle codec, the tag dispatcher (`src/interface.rs`), and the real-time
signal backend (`src/signal.rs`), together with theorems settling the
specification claims about them.

Conventions of the embedding:
* Rust `u64` / `usize` values are `Nat`; wrap-around of the shared
  allocation cursor is irrelevant because the code only ever reduces it
  with a mask, so we keep it unbounded.
* The process-wide mutable statics (`SIGNALS`, `USED`, `NEXT`) become the
  explicit record `SigState`; each operation is a function from a state
  to a result together with the successor state.
* `panic!` / failed `assert!` (fatal aborts) are modelled by `none`
  (resp. `Except.error` with the panic message at the dispatcher).
* The external delivery primitive `libc::kill` is an uninterpreted
  parameter `kill : Nat → Nat → Int`; the code only inspects whether the
  returned value is zero.
-/

namespace AsyncNotification

/-- Rust `usize::next_power_of_two`, structural-recursion version: `go`
doubles `power` until it is at least `n`; fuel `n` suffices because
`n ≤ 2 ^ n`. -/
def next_power_of_two_go (n : Nat) : Nat → Nat → Nat
  | 0, power => power
  | fuel + 1, power => if n ≤ power then power else next_power_of_two_go n fuel (2 * power)

/-- Rust `usize::next_power_of_two`: the least power of two that is `≥ n`
(and `1` for `n = 0`). -/
def next_power_of_two (n : Nat) : Nat :=
  next_power_of_two_go n n 1

/-- The signal backend's process-wide state: the pool of usable signal
numbers (`SIGNALS`, fixed at initialisation), the per-signal occupancy
flags (`USED[_].used`, indexed by signal number), the per-signal presence
of a bound `SignalsInfo` event stream (`USED[_].info`), and the shared
allocation cursor (`NEXT`). -/
structure SigState where
  signals : List Nat
  used : Nat → Bool
  info : Nat → Bool
  next : Nat

/-- `SignalNotification::init` builds `SIGNALS` as the numbers from
`SIGRTMIN` to `SIGRTMAX` (34 to 64 on Linux) minus `{0x3f, 0x40}`. -/
def linuxSignals : List Nat :=
  (List.range' 34 31).filter (fun i => i != 0x3f && i != 0x40)

/-- A freshly initialised backend state over a given pool: every
occupancy flag clear, no event stream bound, cursor at `0`. -/
def initState (signals : List Nat) : SigState :=
  { signals := signals, used := fun _ => false, info := fun _ => false, next := 0 }

/-- One iteration step of the probe loop in `SignalNotification::new_id`
(`for _ in 0..mod_`), with `fuel` the remaining iterations and
`currNext` the current value of the local `curr_next`.  Returns the
allocated signal number (or `none`), the successor state, and the number
of loop iterations executed.

* `index = curr_next & mask`; an `index` out of range `continue`s with
  the SAME `curr_next` (the code does not re-fetch the cursor there);
* an occupied slot (`swap(true)` returned `true`, so the flag is
  unchanged) re-fetches the cursor: `curr_next = NEXT.fetch_add(1)`;
* a free slot is claimed: its flag was just set by the `swap`, the event
  stream is created (`info` set), and the signal number is returned. -/
def newIdLoop : Nat → Nat → SigState → Option Nat × SigState × Nat
  | 0, _, s => (none, s, 0)
  | fuel + 1, currNext, s =>
    let sigNum := s.signals.length
    let mask := next_power_of_two sigNum - 1
    let index := currNext &&& mask
    if h : index < sigNum then
      let sig := s.signals.get ⟨index, h⟩
      if s.used sig then
        let r := newIdLoop fuel s.next { s with next := s.next + 1 }
        (r.1, r.2.1, r.2.2 + 1)
      else
        (some sig,
          { s with
            used := fun x => if x = sig then true else s.used x,
            info := fun x => if x = sig then true else s.info x },
          1)
    else
      let r := newIdLoop fuel currNext s
      (r.1, r.2.1, r.2.2 + 1)

/-- `SignalNotification::new_id`: `mod_ = SIG_NUM.next_power_of_two()`;
the initial `curr_next = NEXT.fetch_add(1)`; then the probe loop runs
for at most `mod_` iterations. -/
def new_id (s : SigState) : Option Nat × SigState × Nat :=
  let mod_ := next_power_of_two s.signals.length
  newIdLoop mod_ s.next { s with next := s.next + 1 }

/-- `SignalNotification::release_id`: assert the id is a pool signal
(fatal abort otherwise), drop the bound event stream (`info.take()`),
clear the occupancy flag (`used.swap(false)`), and assert the prior
value was occupied (fatal abort on double release).  `none` is the
abort. -/
def release_id (s : SigState) (id : Nat) : Option SigState :=
  if s.signals.contains id then
    let res := s.used id
    if res then
      some { s with
        used := fun x => if x = id then false else s.used x,
        info := fun x => if x = id then false else s.info x }
    else none
  else none

/-- `SignalNotification::wait_on`, state-observable part: assert the id
is a pool signal, then `unwrap` the bound event stream (fatal abort when
absent) and await it.  It reads but never writes the occupancy table, so
on success the state is returned unchanged. -/
def wait_on (s : SigState) (id : Nat) : Option SigState :=
  if s.signals.contains id && s.info id then some s else none

/-- `SignalNotification::notify`: call the delivery primitive
(`libc::kill(process, id)`) and assert the result is zero; a non-zero
result is a fatal abort (`none`).  No pool validation is performed. -/
def notify (kill : Nat → Nat → Int) (process : Nat) (id : Nat) : Option Unit :=
  if kill process id = 0 then some () else none

/-- `SIGNAL_HIGH8 = 0x01 << 56` from `src/interface.rs`. -/
def SIGNAL_HIGH8 : Nat := 0x0100000000000000

/-- `UINTR_HIGH8 = 0x02 << 56` from `src/interface.rs`. -/
def UINTR_HIGH8 : Nat := 0x0200000000000000

/-- `let high8 = id & 0xFF00_0000_0000_0000` (the tag byte, in place). -/
def high8 (id : Nat) : Nat := id &&& 0xFF00000000000000

/-- `let id_inner = id & 0x00FF_FFFF_FFFF_FFFF` (the backend-local id). -/
def idInner (id : Nat) : Nat := id &&& 0x00FFFFFFFFFFFFFF

/-- Where the dispatcher forwards a call: to the signal backend or to
the user-interrupt backend, with the decoded inner id. -/
inductive Routed where
  | signal (inner : Nat)
  | uintr (inner : Nat)
  deriving DecidableEq, Repr

/-- The 16-digit lower-case zero-padded hex rendering used by the
dispatcher's `0x{:016x}` panic format. -/
def hexDigit (n : Nat) : Char :=
  if n < 10 then Char.ofNat (48 + n) else Char.ofNat (87 + n)

/-- `k` hex digits of `n`, most significant first, zero padded. -/
def hexDigits : Nat → Nat → List Char
  | 0, _ => []
  | k + 1, n => hexDigits k (n / 16) ++ [hexDigit (n % 16)]

/-- The dispatcher's panic message
`"<op>: Unknown notification type with id: 0x{:016x}"`. -/
def unknownMsg (op : String) (id : Nat) : String :=
  op ++ ": Unknown notification type with id: 0x" ++ String.mk (hexDigits 16 id)

/-- `Notification::wait_on`: decode the tag, forward to the matching
backend, panic on an unmatched tag. -/
def dispatchWaitOn (id : Nat) : Except String Routed :=
  if high8 id = SIGNAL_HIGH8 then .ok (.signal (idInner id))
  else if high8 id = UINTR_HIGH8 then .ok (.uintr (idInner id))
  else .error (unknownMsg "wait_on" id)

/-- `Notification::release_id`: decode the tag, forward to the matching
backend, panic on an unmatched tag. -/
def dispatchReleaseId (id : Nat) : Except String Routed :=
  if high8 id = SIGNAL_HIGH8 then .ok (.signal (idInner id))
  else if high8 id = UINTR_HIGH8 then .ok (.uintr (idInner id))
  else .error (unknownMsg "release_id" id)

/-- `Notification::notify`: decode the tag, forward to the matching
backend with the peer process id, panic on an unmatched tag. -/
def dispatchNotify (_process : Nat) (id : Nat) : Except String Routed :=
  if high8 id = SIGNAL_HIGH8 then .ok (.signal (idInner id))
  else if high8 id = UINTR_HIGH8 then .ok (.uintr (idInner id))
  else .error (unknownMsg "notify" id)

/-- The encoding applied by `Notification::new_id_signal` to a signal
backend id: `(id & 0x00FF_FFFF_FFFF_FFFF) | SIGNAL_HIGH8`. -/
def encodeSignal (id : Nat) : Nat := (id &&& 0x00FFFFFFFFFFFFFF) ||| SIGNAL_HIGH8

/-- `Notification::new_id_signal`: run the signal backend allocator and
tag a successful result. -/
def new_id_signal (s : SigState) : Option Nat × SigState × Nat :=
  let r := new_id s
  (r.1.map encodeSignal, r.2)

/-- `Notification::new_id` (the trait method on the dispatcher): the
body is literally `None`; it consults no backend state. -/
def notificationNewId : Option Nat := none

/-- Repeated allocation: run `new_id` a given number of times, collecting
the per-call results and threading the state. -/
def allocs : Nat → SigState → List (Option Nat) × SigState
  | 0, s => ([], s)
  | k + 1, s =>
    let r := new_id s
    let rest := allocs k r.2.1
    (r.1 :: rest.1, rest.2)

/-- The four operations of the backend contract, used to state the
occupancy-transition invariant. -/
inductive Op where
  | newId
  | release (id : Nat)
  | waitOn (id : Nat)
  | notifyTo (process : Nat) (id : Nat)

/-- One successful step of the signal backend: the state effect of each
operation (a `none` is a fatal abort, after which no state exists). -/
def step (kill : Nat → Nat → Int) (s : SigState) : Op → Option SigState
  | .newId => some (new_id s).2.1
  | .release id => release_id s id
  | .waitOn id => wait_on s id
  | .notifyTo p id => (notify kill p id).map (fun _ => s)

/-- The backend state after `k` successful sequential allocations from a
fresh pool: the first `k` pool entries occupied with their event streams
bound, cursor at `k`. -/
def stateAt (signals : List Nat) (k : Nat) : SigState :=
  { signals := signals,
    used := fun x => decide (x ∈ signals.take k),
    info := fun x => decide (x ∈ signals.take k),
    next := k }

/-- The spec's own scenario pool: size 3, signal numbers 34, 35, 36. -/
def sample3 : SigState := initState [34, 35, 36]

/-- The scenario pool after one allocation (which returns 34). -/
def sample3a : SigState := (new_id sample3).2.1

/-! ### Helper lemmas -/

theorem next_power_of_two_go_le (n : Nat) :
    ∀ fuel power, n ≤ 2 ^ fuel * power → n ≤ next_power_of_two_go n fuel power := by
  intro fuel
  induction fuel with
  | zero => intro power h; simpa [next_power_of_two_go] using h
  | succ fuel ih =>
    intro power h
    unfold next_power_of_two_go
    by_cases hp : n ≤ power
    · simp [hp]
    · simp only [hp, if_false]
      apply ih
      calc n ≤ 2 ^ (fuel + 1) * power := h
        _ = 2 ^ fuel * (2 * power) := by ring

/-- The modelled `next_power_of_two` is at least its argument. -/
theorem le_next_power_of_two (n : Nat) : n ≤ next_power_of_two n :=
  next_power_of_two_go_le n n 1 (by simpa using Nat.le_of_lt (Nat.lt_two_pow n))

theorem next_power_of_two_go_pow (n : Nat) :
    ∀ fuel power, (∃ j, power = 2 ^ j) → ∃ k, next_power_of_two_go n fuel power = 2 ^ k := by
  intro fuel
  induction fuel with
  | zero => intro power h; simpa [next_power_of_two_go] using h
  | succ fuel ih =>
    intro power h
    obtain ⟨j, rfl⟩ := h
    unfold next_power_of_two_go
    by_cases hp : n ≤ 2 ^ j
    · exact ⟨j, by simp [hp]⟩
    · simp only [hp, if_false]
      exact ih _ ⟨j + 1, by ring⟩

/-- The modelled `next_power_of_two` is a power of two. -/
theorem next_power_of_two_pow (n : Nat) : ∃ k, next_power_of_two n = 2 ^ k :=
  next_power_of_two_go_pow n n 1 ⟨0, rfl⟩

/-- The modelled `next_power_of_two` is positive. -/
theorem next_power_of_two_pos (n : Nat) : 0 < next_power_of_two n := by
  obtain ⟨k, hk⟩ := next_power_of_two_pow n
  rw [hk]
  exact Nat.pos_pow_of_pos k (by omega)

/-- Masking with `next_power_of_two len - 1` is the identity below `len`. -/
theorem and_next_power_of_two_mask (len c : Nat) (h : c < len) :
    c &&& (next_power_of_two len - 1) = c := by
  obtain ⟨k, hk⟩ := next_power_of_two_pow len
  have hle := le_next_power_of_two len
  rw [hk, Nat.and_pow_two_sub_one_eq_mod]
  exact Nat.mod_eq_of_lt (by omega)

/-- The probe loop never touches the pool list. -/
theorem newIdLoop_signals (fuel : Nat) :
    ∀ c s, (newIdLoop fuel c s).2.1.signals = s.signals := by
  induction fuel with
  | zero => intro c s; rfl
  | succ fuel ih =>
    intro c s
    unfold newIdLoop
    dsimp only
    split
    · split
      · exact ih s.next _
      · rfl
    · exact ih c s

theorem ite_eq_swap (a b : Nat) (u : Bool) :
    (if b = a then true else u) = if some a = some b then true else u := by
  by_cases h : b = a
  · subst h; simp
  · simp [h, Ne.symm h]

/-- The probe loop changes the occupancy flag of exactly the signal it
returns (from free to occupied), and no other. -/
theorem newIdLoop_used (fuel : Nat) :
    ∀ c s x, (newIdLoop fuel c s).2.1.used x =
      if (newIdLoop fuel c s).1 = some x then true else s.used x := by
  induction fuel with
  | zero => intro c s x; simp [newIdLoop]
  | succ fuel ih =>
    intro c s x
    unfold newIdLoop
    dsimp only
    split
    · split
      · exact ih s.next _ x
      · exact ite_eq_swap _ _ _
    · exact ih c s x

/-- Same statement for the event-stream presence flag. -/
theorem newIdLoop_info (fuel : Nat) :
    ∀ c s x, (newIdLoop fuel c s).2.1.info x =
      if (newIdLoop fuel c s).1 = some x then true else s.info x := by
  induction fuel with
  | zero => intro c s x; simp [newIdLoop]
  | succ fuel ih =>
    intro c s x
    unfold newIdLoop
    dsimp only
    split
    · split
      · exact ih s.next _ x
      · exact ite_eq_swap _ _ _
    · exact ih c s x

/-- The probe loop executes at most `fuel` iterations. -/
theorem newIdLoop_attempts (fuel : Nat) :
    ∀ c s, (newIdLoop fuel c s).2.2 ≤ fuel := by
  induction fuel with
  | zero => intro c s; simp [newIdLoop]
  | succ fuel ih =>
    intro c s
    unfold newIdLoop
    dsimp only
    split
    · split
      · dsimp only
        have := ih s.next { s with next := s.next + 1 }
        omega
      · dsimp only
        omega
    · have := ih c s
      show (newIdLoop fuel c s).2.2 + 1 ≤ fuel + 1
      omega

/-- On a fully occupied pool the probe loop fails. -/
theorem newIdLoop_full (fuel : Nat) :
    ∀ c s, (∀ x ∈ s.signals, s.used x = true) → (newIdLoop fuel c s).1 = none := by
  induction fuel with
  | zero => intro c s _; rfl
  | succ fuel ih =>
    intro c s hfull
    unfold newIdLoop
    dsimp only
    split
    · split
      · exact ih s.next { s with next := s.next + 1 } hfull
      · rename_i hval hfree
        exact absurd (hfull _ (List.get_mem _ _ _)) hfree
    · exact ih c s hfull

/-- Decoding the low 56 bits of an encoded signal handle recovers the
inner id truncated to 56 bits. -/
theorem idInner_encodeSignal (inner : Nat) :
    idInner (encodeSignal inner) = inner % 2 ^ 56 := by
  have h1 : (0x00FFFFFFFFFFFFFF : Nat) = 2 ^ 56 - 1 := by norm_num
  have h2 : SIGNAL_HIGH8 = 2 ^ 56 := by norm_num [SIGNAL_HIGH8]
  unfold idInner encodeSignal
  rw [h1, h2, Nat.and_pow_two_sub_one_eq_mod, Nat.and_pow_two_sub_one_eq_mod]
  apply Nat.eq_of_testBit_eq
  intro i
  simp only [Nat.testBit_mod_two_pow, Nat.testBit_or, Nat.testBit_two_pow]
  by_cases h : i < 56
  · simp [h, Nat.testBit_mod_two_pow, Nat.ne_of_gt h]
  · simp [h]

/-- The tag byte of an encoded signal handle is the signal backend's tag. -/
theorem high8_encodeSignal (inner : Nat) :
    high8 (encodeSignal inner) = SIGNAL_HIGH8 := by
  have h1 : (0x00FFFFFFFFFFFFFF : Nat) = 2 ^ 56 - 1 := by norm_num
  have h2 : SIGNAL_HIGH8 = 2 ^ 56 := by norm_num [SIGNAL_HIGH8]
  have h3 : (0xFF00000000000000 : Nat) = 255 <<< 56 := by
    rw [Nat.shiftLeft_eq]
  unfold high8 encodeSignal
  rw [h1, h2, h3, Nat.and_pow_two_sub_one_eq_mod]
  apply Nat.eq_of_testBit_eq
  intro i
  simp only [Nat.testBit_and, Nat.testBit_or, Nat.testBit_two_pow, Nat.testBit_mod_two_pow,
    Nat.testBit_shiftLeft]
  rcases Nat.lt_trichotomy i 56 with h | h | h
  · simp [Nat.not_le_of_lt h, h, Nat.ne_of_gt h]
  · subst h; simp
  · have hi : ¬ i < 56 := by omega
    have hne : ¬ (56 = i) := by omega
    simp [hi, hne, Nat.le_of_lt h]

/-- In a duplicate-free list, the element at position `k` does not occur
among the first `k` elements. -/
theorem get_not_mem_take (l : List Nat) (hnd : l.Nodup) (k : Nat) (hk : k < l.length) :
    l.get ⟨k, hk⟩ ∉ l.take k := by
  have hsub : (l.take (k + 1)).Nodup := (List.take_sublist (k + 1) l).nodup hnd
  rw [List.take_succ] at hsub
  have hget : l[k]? = some (l.get ⟨k, hk⟩) := by
    rw [List.getElem?_eq_getElem hk]
    rfl
  rw [hget] at hsub
  rcases List.nodup_append.mp hsub with ⟨h1, h2, hdisj⟩
  intro hmem
  exact hdisj hmem (by simp)


theorem take_succ_decide (signals : List Nat) (k : Nat) (hk : k < signals.length) (x : Nat) :
    (if x = signals.get ⟨k, hk⟩ then true else decide (x ∈ signals.take k)) =
      decide (x ∈ signals.take (k + 1)) := by
  have htake : signals.take (k + 1) = signals.take k ++ [signals.get ⟨k, hk⟩] := by
    rw [List.take_succ, List.getElem?_eq_getElem hk]
    rfl
  rw [htake]
  rcases eq_or_ne x (signals.get ⟨k, hk⟩) with hx | hx
  · rw [if_pos hx]
    have hmem : x ∈ signals.take k ++ [signals.get ⟨k, hk⟩] :=
      List.mem_append_right _ (by rw [hx]; exact List.mem_singleton_self _)
    exact (decide_eq_true hmem).symm
  · rw [if_neg hx]
    have hiff : (x ∈ signals.take k ++ [signals.get ⟨k, hk⟩]) ↔ x ∈ signals.take k := by
      constructor
      · intro hm
        rcases List.mem_append.mp hm with hm2 | hm2
        · exact hm2
        · exact absurd (List.mem_singleton.mp hm2) hx
      · intro hm
        exact List.mem_append_left _ hm
    exact decide_eq_decide.mpr hiff.symm

theorem newIdLoop_free_hit (fuel c i : Nat) (s : SigState)
    (hidx : c &&& (next_power_of_two s.signals.length - 1) = i)
    (h : i < s.signals.length)
    (hfree : s.used (s.signals.get ⟨i, h⟩) = false) :
    newIdLoop (fuel + 1) c s =
      (some (s.signals.get ⟨i, h⟩),
       { s with
         used := fun x => if x = s.signals.get ⟨i, h⟩ then true else s.used x,
         info := fun x => if x = s.signals.get ⟨i, h⟩ then true else s.info x },
       1) := by
  subst hidx
  have hfree2 : s.used s.signals[c &&& (next_power_of_two s.signals.length - 1)] = false := hfree
  unfold newIdLoop
  dsimp only
  rw [dif_pos h, if_neg (by simp [hfree2])]

theorem new_id_stateAt (signals : List Nat) (hnd : signals.Nodup) (k : Nat)
    (hk : k < signals.length) :
    new_id (stateAt signals k) = (some (signals.get ⟨k, hk⟩), stateAt signals (k + 1), 1) := by
  obtain ⟨m, hm⟩ : ∃ m, next_power_of_two signals.length = m + 1 := by
    have := next_power_of_two_pos signals.length
    exact ⟨next_power_of_two signals.length - 1, by omega⟩
  have hmask : k &&& (next_power_of_two signals.length - 1) = k :=
    and_next_power_of_two_mask signals.length k hk
  unfold new_id
  show newIdLoop (next_power_of_two signals.length) k
      { stateAt signals k with next := k + 1 } = _
  rw [hm]
  rw [newIdLoop_free_hit m k k _ hmask hk
    (decide_eq_false (get_not_mem_take signals hnd k hk))]
  show (some (signals.get ⟨k, hk⟩),
      ({ signals := signals,
         used := fun x => if x = signals.get ⟨k, hk⟩ then true else decide (x ∈ signals.take k),
         info := fun x => if x = signals.get ⟨k, hk⟩ then true else decide (x ∈ signals.take k),
         next := k + 1 } : SigState), 1) = _
  unfold stateAt
  simp only [Prod.mk.injEq, SigState.mk.injEq, eq_self_iff_true, true_and, and_true]
  refine ⟨?_, ?_⟩
  · funext x
    exact take_succ_decide signals k hk x
  · funext x
    exact take_succ_decide signals k hk x

theorem new_id_full_none (signals : List Nat) :
    (new_id (stateAt signals signals.length)).1 = none := by
  unfold new_id
  apply newIdLoop_full
  intro x hx
  show decide (x ∈ signals.take signals.length) = true
  rw [List.take_length]
  exact decide_eq_true hx

theorem initState_eq_stateAt (signals : List Nat) : initState signals = stateAt signals 0 := by
  unfold initState stateAt
  simp only [SigState.mk.injEq, eq_self_iff_true, true_and, and_true]
  constructor <;> funext x <;> simp

theorem allocs_stateAt (signals : List Nat) (hnd : signals.Nodup) :
    ∀ j k, k + j = signals.length →
      (allocs (j + 1) (stateAt signals k)).1 = ((signals.drop k).map some) ++ [none] := by
  intro j
  induction j with
  | zero =>
    intro k hkk
    have hk : k = signals.length := by omega
    subst hk
    show ((new_id (stateAt signals signals.length)).1 ::
        (allocs 0 (new_id (stateAt signals signals.length)).2.1).1) = _
    rw [new_id_full_none, List.drop_length]
    rfl
  | succ j ih =>
    intro k hkk
    have hk : k < signals.length := by omega
    have hstep := new_id_stateAt signals hnd k hk
    show ((new_id (stateAt signals k)).1 ::
        (allocs (j + 1) (new_id (stateAt signals k)).2.1).1) = _
    rw [hstep]
    dsimp only
    rw [ih (k + 1) (by omega), List.drop_eq_getElem_cons hk, List.map_cons]
    rfl

/-! ### Claim theorems -/

/-- C2: starting from an empty signal backend whose pool has size `N`,
`N` successive `new_id` calls return `N` pairwise-distinct valid handles
(in fact exactly the pool's signal numbers, in order), the `(N+1)`-th
call returns none, and every call's probe is bounded to `M` attempts
where `M` is the smallest power of two that is at least `N`. -/
theorem claim_c2_exhaustion_and_probe_bound (signals : List Nat) (hnd : signals.Nodup)
    (s : SigState) :
    (allocs (signals.length + 1) (initState signals)).1 = signals.map some ++ [none] ∧
    ((allocs (signals.length + 1) (initState signals)).1.take signals.length).Nodup ∧
    (new_id s).2.2 ≤ next_power_of_two s.signals.length := by
  have h1 : (allocs (signals.length + 1) (initState signals)).1 = signals.map some ++ [none] := by
    rw [initState_eq_stateAt]
    have h2 := allocs_stateAt signals hnd signals.length 0 (by omega)
    simpa using h2
  refine ⟨h1, ?_, ?_⟩
  · rw [h1, List.take_left' (by simp)]
    exact hnd.map (Option.some_injective Nat)
  · unfold new_id
    exact newIdLoop_attempts _ _ _

/-- C2 witness: the scenario pool of size 3 with signal numbers
34, 35, 36. -/
theorem claim_c2_exhaustion_and_probe_bound_witness :
    ([34, 35, 36] : List Nat).Nodup ∧
    ((allocs 4 (initState [34, 35, 36])).1 = [34, 35, 36].map some ++ [none] ∧
     ((allocs 4 (initState [34, 35, 36])).1.take 3).Nodup ∧
     (new_id sample3).2.2 ≤ next_power_of_two sample3.signals.length) :=
  ⟨by decide, claim_c2_exhaustion_and_probe_bound [34, 35, 36] (by decide) sample3⟩

/-- C10: the dispatcher-level allocator `Notification::new_id` always
returns `none`, even when the signal backend still has free capacity
(here: a fresh pool, on which the backend allocator succeeds). -/
theorem claim_c10_dispatcher_new_id_none :
    notificationNewId = none ∧ (new_id (initState linuxSignals)).1 = some 34 :=
  ⟨rfl, by decide⟩

/-- C4: a handle whose tag byte matches neither compiled-in backend tag
makes each dispatcher operation abort with the panic message naming the
operation and the full handle value. -/
theorem claim_c4_unknown_tag_fatal (id p : Nat)
    (h1 : high8 id ≠ SIGNAL_HIGH8) (h2 : high8 id ≠ UINTR_HIGH8) :
    dispatchWaitOn id = .error (unknownMsg "wait_on" id) ∧
    dispatchReleaseId id = .error (unknownMsg "release_id" id) ∧
    dispatchNotify p id = .error (unknownMsg "notify" id) := by
  unfold dispatchWaitOn dispatchReleaseId dispatchNotify
  rw [if_neg h1, if_neg h2, if_neg h1, if_neg h2, if_neg h1, if_neg h2]
  exact ⟨rfl, rfl, rfl⟩

/-- C4 witness: handle 5 has tag byte 0, which matches no backend. -/
theorem claim_c4_unknown_tag_fatal_witness :
    high8 5 ≠ SIGNAL_HIGH8 ∧ high8 5 ≠ UINTR_HIGH8 ∧
    (dispatchWaitOn 5 = .error (unknownMsg "wait_on" 5) ∧
     dispatchReleaseId 5 = .error (unknownMsg "release_id" 5) ∧
     dispatchNotify 1 5 = .error (unknownMsg "notify" 5)) :=
  ⟨by decide, by decide, claim_c4_unknown_tag_fatal 5 1 (by decide) (by decide)⟩

/-- C8: every handle produced by `new_id_signal` is the backend id
encoded with the signal tag in bits 63–56; decoding (as the dispatcher
does) recovers the tag and the inner id truncated to 56 bits and routes
back to the signal backend; encoding silently drops inner-id bits above
56 for any input. -/
theorem claim_c8_codec_roundtrip (s : SigState) (id p inner : Nat)
    (hs : (new_id s).1 = some id) :
    (new_id_signal s).1 = some (encodeSignal id) ∧
    high8 (encodeSignal id) = SIGNAL_HIGH8 ∧
    idInner (encodeSignal id) = id % 2 ^ 56 ∧
    dispatchWaitOn (encodeSignal id) = .ok (.signal (id % 2 ^ 56)) ∧
    dispatchReleaseId (encodeSignal id) = .ok (.signal (id % 2 ^ 56)) ∧
    dispatchNotify p (encodeSignal id) = .ok (.signal (id % 2 ^ 56)) ∧
    idInner (encodeSignal inner) = inner % 2 ^ 56 := by
  refine ⟨?_, high8_encodeSignal id, idInner_encodeSignal id, ?_, ?_, ?_,
    idInner_encodeSignal inner⟩
  · show (new_id s).1.map encodeSignal = some (encodeSignal id)
    rw [hs]
    rfl
  · unfold dispatchWaitOn
    rw [if_pos (high8_encodeSignal id), idInner_encodeSignal id]
  · unfold dispatchReleaseId
    rw [if_pos (high8_encodeSignal id), idInner_encodeSignal id]
  · unfold dispatchNotify
    rw [if_pos (high8_encodeSignal id), idInner_encodeSignal id]

/-- C8 witness: the scenario pool's first allocation (34), peer 1, and
an oversized inner id showing the 56-bit truncation. -/
theorem claim_c8_codec_roundtrip_witness :
    (new_id sample3).1 = some 34 ∧
    ((new_id_signal sample3).1 = some (encodeSignal 34) ∧
     high8 (encodeSignal 34) = SIGNAL_HIGH8 ∧
     idInner (encodeSignal 34) = 34 % 2 ^ 56 ∧
     dispatchWaitOn (encodeSignal 34) = .ok (.signal (34 % 2 ^ 56)) ∧
     dispatchReleaseId (encodeSignal 34) = .ok (.signal (34 % 2 ^ 56)) ∧
     dispatchNotify 1 (encodeSignal 34) = .ok (.signal (34 % 2 ^ 56)) ∧
     idInner (encodeSignal (2 ^ 56 + 7)) = (2 ^ 56 + 7) % 2 ^ 56) :=
  ⟨by decide, claim_c8_codec_roundtrip sample3 34 1 (2 ^ 56 + 7) (by decide)⟩

/-- C3 counterexample: `notify` does not validate the handle against the
backend's pool.  Signal number 10 is not in the pool, yet when the
delivery primitive reports success (result 0, e.g. a live process
receiving SIGUSR1), `notify` returns normally instead of aborting. -/
theorem claim_c3_counterexample :
    ¬ (10 ∈ linuxSignals) ∧ notify (fun _ _ => 0) 1 10 = some () :=
  ⟨by decide, rfl⟩

/-- C3 amended: `notify` performs no pool validation at all; it passes
the id straight to the delivery primitive, returns normally exactly when
the primitive reports 0, and aborts fatally on any non-zero result. -/
theorem claim_c3_delivery_result_decides (kill : Nat → Nat → Int) (p id : Nat) :
    (notify kill p id = some () ↔ kill p id = 0) ∧
    (kill p id ≠ 0 → notify kill p id = none) := by
  unfold notify
  refine ⟨⟨?_, ?_⟩, ?_⟩
  · intro h
    by_contra hk
    rw [if_neg hk] at h
    exact Option.noConfusion h
  · intro h
    rw [if_pos h]
  · intro h
    rw [if_neg h]

/-- C3 amended witness: a failing primitive (result 1) makes notify
abort. -/
theorem claim_c3_delivery_result_decides_witness :
    (notify (fun _ _ => 1) 1 10 = some () ↔ (fun _ _ => (1 : Int)) 1 10 = 0) ∧
    ((fun _ _ => (1 : Int)) 1 10 ≠ 0 → notify (fun _ _ => 1) 1 10 = none) :=
  claim_c3_delivery_result_decides (fun _ _ => 1) 1 10

/-- C5: for an id in the pool, releasing a free slot is a fatal abort
(double release), and releasing an occupied slot clears both the
occupancy flag and the bound event stream. -/
theorem claim_c5_release_semantics (s : SigState) (id : Nat) (hmem : id ∈ s.signals) :
    (s.used id = false → release_id s id = none) ∧
    (s.used id = true →
      (release_id s id).map (fun t => (t.used id, t.info id)) = some (false, false)) := by
  have hc : s.signals.contains id = true := by
    simpa using hmem
  constructor
  · intro hu
    simp [release_id, hc, hu]
  · intro hu
    simp [release_id, hc, hu, hmem]

/-- C5 witness: in the scenario pool after allocating 34, releasing 34
succeeds and clears the slot; the free-slot abort is vacuous there. -/
theorem claim_c5_release_semantics_witness :
    34 ∈ sample3a.signals ∧
    ((sample3a.used 34 = false → release_id sample3a 34 = none) ∧
     (sample3a.used 34 = true →
       (release_id sample3a 34).map (fun t => (t.used 34, t.info 34)) = some (false, false))) :=
  ⟨by decide, claim_c5_release_semantics sample3a 34 (by decide)⟩

/-- C1, evaluated at the failing input: from a fresh pool {34,35,36},
allocate all three slots, release 34.  The pool now has a free slot, yet
the next `new_id` call returns none: the cursor value 3 masks to index
3, which is out of range, and the loop repeats that same index without
re-fetching the cursor until the probe budget is exhausted. -/
theorem claim_c1_none_with_free_slot :
    (allocs 3 (initState [34, 35, 36])).1 = [some 34, some 35, some 36] ∧
    (release_id (allocs 3 (initState [34, 35, 36])).2 34).map
      (fun t => ((new_id t).1, t.used 34, t.signals.contains 34)) =
        some (none, false, true) := by
  decide

/-- C6, evaluated at the failing input: allocate 34 from a fresh pool
{34,35,36}, release it, then allocate three more times (one full sweep
of the pool of size 3): the results are 35, 36, none — 34 is NOT
reissued within the sweep; only a fourth call returns it. -/
theorem claim_c6_not_reissued_within_sweep :
    (new_id (initState [34, 35, 36])).1 = some 34 ∧
    (release_id (new_id (initState [34, 35, 36])).2.1 34).map (fun t => (allocs 3 t).1) =
      some [some 35, some 36, none] ∧
    (release_id (new_id (initState [34, 35, 36])).2.1 34).map (fun t => (allocs 4 t).1) =
      some [some 35, some 36, none, some 34] := by
  decide

theorem new_id_used (s : SigState) (x : Nat) :
    (new_id s).2.1.used x = if (new_id s).1 = some x then true else s.used x := by
  unfold new_id
  exact newIdLoop_used _ _ _ x

theorem new_id_info (s : SigState) (x : Nat) :
    (new_id s).2.1.info x = if (new_id s).1 = some x then true else s.info x := by
  unfold new_id
  exact newIdLoop_info _ _ _ x

theorem release_id_some (s : SigState) (id : Nat) (s2 : SigState)
    (h : release_id s id = some s2) :
    s.used id = true ∧
    (∀ x, s2.used x = if x = id then false else s.used x) ∧
    (∀ x, s2.info x = if x = id then false else s.info x) := by
  unfold release_id at h
  split at h
  · dsimp only at h
    split at h
    · rename_i hu
      injection h with h2
      subst h2
      exact ⟨hu, fun x => rfl, fun x => rfl⟩
    · exact Option.noConfusion h
  · exact Option.noConfusion h

/-- C7: occupancy invariant.  Across every successful operation step, a
slot goes free to occupied only by a `new_id` call that returns that
slot, and occupied to free only by `release_id` of that slot; `wait_on`
and `notify` leave the state unchanged; and the property "the event
stream is bound exactly while the slot is occupied" holds initially and
is preserved by every step (release in particular clears the stream, so
it cannot leak). -/
theorem claim_c7_occupancy_transitions (kill : Nat → Nat → Int) (sigs : List Nat)
    (s s2 : SigState) (op : Op) (hstep : step kill s op = some s2) :
    (∀ x, s.used x = false → s2.used x = true → op = Op.newId ∧ (new_id s).1 = some x) ∧
    (∀ x, s.used x = true → s2.used x = false → op = Op.release x) ∧
    (∀ id, op = Op.waitOn id → s2 = s) ∧
    (∀ p id, op = Op.notifyTo p id → s2 = s) ∧
    ((∀ x, s.info x = s.used x) → ∀ x, s2.info x = s2.used x) ∧
    (∀ x, (initState sigs).info x = (initState sigs).used x) := by
  cases op with
  | newId =>
    have hs2 : s2 = (new_id s).2.1 := by
      injection hstep with h
      exact h.symm
    subst hs2
    refine ⟨?_, ?_, ?_, ?_, ?_, fun x => rfl⟩
    · intro x h0 h1
      rw [new_id_used] at h1
      by_cases hr : (new_id s).1 = some x
      · exact ⟨rfl, hr⟩
      · rw [if_neg hr] at h1
        rw [h0] at h1
        exact Bool.noConfusion h1
    · intro x h1 h0
      rw [new_id_used] at h0
      by_cases hr : (new_id s).1 = some x
      · rw [if_pos hr] at h0
        exact Bool.noConfusion h0
      · rw [if_neg hr] at h0
        rw [h1] at h0
        exact Bool.noConfusion h0
    · intro i h
      cases h
    · intro p i h
      cases h
    · intro hinv x
      rw [new_id_used, new_id_info, hinv x]
  | release id =>
    obtain ⟨hu, hused, hinfo⟩ := release_id_some s id s2 hstep
    refine ⟨?_, ?_, ?_, ?_, ?_, fun x => rfl⟩
    · intro x h0 h1
      rw [hused x] at h1
      by_cases hx : x = id
      · rw [if_pos hx] at h1
        exact Bool.noConfusion h1
      · rw [if_neg hx] at h1
        rw [h0] at h1
        exact Bool.noConfusion h1
    · intro x h1 h0
      rw [hused x] at h0
      by_cases hx : x = id
      · rw [hx]
      · rw [if_neg hx] at h0
        rw [h1] at h0
        exact Bool.noConfusion h0
    · intro i h
      cases h
    · intro p i h
      cases h
    · intro hinv x
      rw [hused x, hinfo x, hinv x]
  | waitOn id =>
    have hs2 : s2 = s := by
      have hstep2 : wait_on s id = some s2 := hstep
      unfold wait_on at hstep2
      split at hstep2
      · injection hstep2 with h
        exact h.symm
      · exact Option.noConfusion hstep2
    subst hs2
    refine ⟨?_, ?_, ?_, ?_, ?_, fun x => rfl⟩
    · intro x h0 h1
      rw [h0] at h1
      exact Bool.noConfusion h1
    · intro x h1 h0
      rw [h1] at h0
      exact Bool.noConfusion h0
    · intro i h
      rfl
    · intro p i h
      rfl
    · intro hinv x
      exact hinv x
  | notifyTo p id =>
    have hs2 : s2 = s := by
      have hstep2 : (notify kill p id).map (fun _ => s) = some s2 := hstep
      unfold notify at hstep2
      split at hstep2
      · injection hstep2 with h
        exact h.symm
      · exact Option.noConfusion hstep2
    subst hs2
    refine ⟨?_, ?_, ?_, ?_, ?_, fun x => rfl⟩
    · intro x h0 h1
      rw [h0] at h1
      exact Bool.noConfusion h1
    · intro x h1 h0
      rw [h1] at h0
      exact Bool.noConfusion h0
    · intro i h
      rfl
    · intro p2 i h
      rfl
    · intro hinv x
      exact hinv x

/-- C7 witness: one `new_id` step from the scenario pool. -/
theorem claim_c7_occupancy_transitions_witness :
    step (fun _ _ => 0) sample3 Op.newId = some (new_id sample3).2.1 ∧
    ((∀ x, sample3.used x = false → (new_id sample3).2.1.used x = true →
        Op.newId = Op.newId ∧ (new_id sample3).1 = some x) ∧
     (∀ x, sample3.used x = true → (new_id sample3).2.1.used x = false →
        Op.newId = Op.release x) ∧
     (∀ i, Op.newId = Op.waitOn i → (new_id sample3).2.1 = sample3) ∧
     (∀ p i, Op.newId = Op.notifyTo p i → (new_id sample3).2.1 = sample3) ∧
     ((∀ x, sample3.info x = sample3.used x) →
        ∀ x, (new_id sample3).2.1.info x = (new_id sample3).2.1.used x) ∧
     (∀ x, (initState [34, 35, 36]).info x = (initState [34, 35, 36]).used x)) :=
  ⟨rfl, claim_c7_occupancy_transitions (fun _ _ => 0) [34, 35, 36] sample3
    (new_id sample3).2.1 Op.newId rfl⟩

end AsyncNotification

